import Mathlib

/-!
Verification of the vulkan-ash device and swap-chain negotiation pipeline.

The definitions below are a shallow embedding of the Rust sources
(src/main.rs, src/util.rs, src/debug.rs, src/vulkan_create.rs).
Driver queries (queue-family properties, surface support, advertised
formats and present modes, layer lists) are passed in as explicit data;
machine integers are modelled as Nat (the values involved are indices and
enum tags, far from any overflow); fallible calls return Option or Except.
-/

/-! Vulkan enum tags, with the numeric values of the C headers. -/

def FORMAT_UNDEFINED : Nat := 0

def FORMAT_B8G8R8A8_UNORM : Nat := 44

def COLOR_SPACE_SRGB_NONLINEAR : Nat := 0

def PRESENT_MODE_IMMEDIATE : Nat := 0

def PRESENT_MODE_MAILBOX : Nat := 1

def PRESENT_MODE_FIFO : Nat := 2

/-- One (format, color space) pair as advertised by the surface
(ash vk::SurfaceFormatKHR). -/
structure SurfaceFormatKHR where
  format : Nat
  color_space : Nat
deriving DecidableEq

/-- The parts of a vk::QueueFamilyProperties record that the scan reads,
together with the per-family answer of
get_physical_device_surface_support. -/
structure QueueFamily where
  queue_count : Nat
  graphics : Bool
  present_support : Bool
deriving DecidableEq

/-- util.rs DeviceDetails: the selected device's resolved identity. -/
structure DeviceDetails where
  name : String
  graphics_queue_index : Nat
  present_queue_index : Nat
deriving DecidableEq

/-- util.rs REQUIRED_LAYERS (also duplicated in debug.rs). -/
def REQUIRED_LAYERS : List String := ["VK_LAYER_KHRONOS_validation"]

/-- util.rs REQUIRED_DEVICE_EXTENSIONS, i.e. [swapchain::NAME]. -/
def REQUIRED_DEVICE_EXTENSIONS : List String := ["VK_KHR_swapchain"]

/-- util.rs WIDTH (default window width). -/
def DEFAULT_WIDTH : Nat := 800

/-- util.rs HEIGHT (default window height). -/
def DEFAULT_HEIGHT : Nat := 600

/-- main.rs VulkanApp::find_queue_families (lines 320-358): one pass over
the queue families, skipping zero-capacity ones; `graphics` keeps the
first enumerated index whose family has the GRAPHICS flag, `present`
keeps the first enumerated index for which the surface reports
present support.  The two accumulators are updated independently in the
same loop. -/
def find_queue_families (families : List QueueFamily) : Option Nat × Option Nat :=
  ((families.filter (fun f => decide (0 < f.queue_count))).enum).foldl
    (fun gp q =>
      (if q.2.graphics && gp.1.isNone then some q.1 else gp.1,
       if q.2.present_support && gp.2.isNone then some q.1 else gp.2))
    (none, none)

/-- util.rs devices_queue_family_support, inner loop (lines 327-361), for a
single device: `graphics` and `present` are local to each iteration, so a
DeviceDetails is inserted exactly when one family has both the GRAPHICS
flag and present support, and both recorded indices are that family's
index; a later qualifying family overwrites the map entry. -/
def deviceDetailsOfFamilies (name : String) (families : List QueueFamily) :
    Option DeviceDetails :=
  ((families.filter (fun f => decide (0 < f.queue_count))).enum).foldl
    (fun acc q =>
      if q.2.graphics && q.2.present_support then
        some { name := name, graphics_queue_index := q.1, present_queue_index := q.1 }
      else acc)
    none

/-- util.rs devices_queue_family_support (lines 307-365): the values of the
resulting DeviceMap, one optional DeviceDetails per candidate device. -/
def devices_queue_family_support (devices : List (String × List QueueFamily)) :
    List DeviceDetails :=
  devices.filterMap (fun d => deviceDetailsOfFamilies d.1 d.2)

/-- The per-candidate data read by main.rs's suitability checks: queue
families, device extension names, advertised surface formats and present
modes. -/
structure CandidateDevice where
  queue_families : List QueueFamily
  extensions : List String
  formats : List SurfaceFormatKHR
  present_modes : List Nat
deriving DecidableEq

/-- main.rs VulkanApp::check_device_extension_support (lines 293-314):
every required extension must appear among the device's extension
properties. -/
def check_device_extension_support (d : CandidateDevice) : Bool :=
  REQUIRED_DEVICE_EXTENSIONS.all (fun r => decide (r ∈ d.extensions))

/-- main.rs VulkanApp::is_device_suitable (lines 276-291). -/
def is_device_suitable (d : CandidateDevice) : Bool :=
  (find_queue_families d.queue_families).1.isSome &&
  (find_queue_families d.queue_families).2.isSome &&
  check_device_extension_support d &&
  (!(d.formats.isEmpty) && !(d.present_modes.isEmpty))

/-- main.rs VulkanApp::pick_physical_device (lines 257-274): first
suitable device in enumeration order, via Iterator::find. -/
def pick_physical_device (devices : List CandidateDevice) : Option CandidateDevice :=
  devices.find? is_device_suitable

/-- The fixed preferred surface format (8-bit BGRA, nonlinear sRGB). -/
def preferred_surface_format : SurfaceFormatKHR :=
  { format := FORMAT_B8G8R8A8_UNORM, color_space := COLOR_SPACE_SRGB_NONLINEAR }

/-- util.rs SwapChainSupportDetails::choose_swapchain_surface_format
(lines 409-425), identical logic in main.rs lines 500-517.  Indexing an
empty list (the Rust would panic in formats[0]) is modelled as none. -/
def choose_swapchain_surface_format (formats : List SurfaceFormatKHR) :
    Option SurfaceFormatKHR :=
  match formats.head? with
  | none => none
  | some f0 =>
    if formats.length = 1 ∧ f0.format = FORMAT_UNDEFINED then
      some preferred_surface_format
    else
      some ((formats.find? (fun f =>
        decide (f.format = FORMAT_B8G8R8A8_UNORM ∧
          f.color_space = COLOR_SPACE_SRGB_NONLINEAR))).getD f0)

/-- util.rs SwapChainSupportDetails::choose_swapchain_surface_present_mode
(lines 427-435), identical logic in main.rs lines 519-529. -/
def choose_swapchain_surface_present_mode (modes : List Nat) : Nat :=
  if PRESENT_MODE_MAILBOX ∈ modes then PRESENT_MODE_MAILBOX
  else if PRESENT_MODE_FIFO ∈ modes then PRESENT_MODE_FIFO
  else PRESENT_MODE_IMMEDIATE

/-- Rust Vec::dedup: remove consecutive repeated elements. -/
def vecDedup : List Nat → List Nat
  | [] => []
  | [a] => [a]
  | a :: b :: rest =>
    if a = b then vecDedup (b :: rest) else a :: vecDedup (b :: rest)

/-- One vk::DeviceQueueCreateInfo: a queue family index and the priority
list (its length is the number of queues requested). -/
structure DeviceQueueCreateInfo where
  queue_family_index : Nat
  queue_priorities : List ℚ
deriving DecidableEq

/-- vulkan_create.rs logical_device_with_graphics_queue (lines 110-154):
the queue-creation requests are built from vec![graphics, present] after
Vec::dedup, each with the single priority 1.0. -/
def logical_device_queue_create_infos (details : DeviceDetails) :
    List DeviceQueueCreateInfo :=
  (vecDedup [details.graphics_queue_index, details.present_queue_index]).map
    (fun i => { queue_family_index := i, queue_priorities := [1] })

/-- vk::SharingMode as used by the swap-chain creation info. -/
inductive SharingMode where
  | EXCLUSIVE
  | CONCURRENT
deriving DecidableEq

/-- vulkan_create.rs swapchain_and_images, sharing-mode match
(lines 212-220): CONCURRENT when the two family indices differ,
EXCLUSIVE otherwise. -/
def swapchain_sharing_mode (details : DeviceDetails) : SharingMode :=
  if details.graphics_queue_index ≠ details.present_queue_index then
    SharingMode.CONCURRENT
  else SharingMode.EXCLUSIVE

/-- The destroyable Vulkan handles held by main.rs VulkanApp. -/
inductive VkHandle where
  | instanceH
  | debugMessengerH
  | surfaceH
  | deviceH
  | swapchainH
  | imageViewH (i : Nat)
deriving DecidableEq

/-- The sequence of handle-creating driver calls issued by
main.rs VulkanApp::new (lines 162-211), for a run whose swap chain ends
up with n images: instance, debug messenger, surface, logical device,
swap chain, then one image view per image in image order. -/
def createSeq (n : Nat) : List VkHandle :=
  [VkHandle.instanceH, VkHandle.debugMessengerH, VkHandle.surfaceH,
   VkHandle.deviceH, VkHandle.swapchainH] ++
  (List.range n).map VkHandle.imageViewH

/-- The sequence of destroy calls issued by main.rs impl Drop for
VulkanApp (lines 602-617): the image views in forward iteration order,
then swap chain, logical device, surface, debug messenger, instance. -/
def destroySeq (n : Nat) : List VkHandle :=
  (List.range n).map VkHandle.imageViewH ++
  [VkHandle.swapchainH, VkHandle.deviceH, VkHandle.surfaceH,
   VkHandle.debugMessengerH, VkHandle.instanceH]

/-- a occurs strictly before b in xs. -/
def listBefore (xs : List VkHandle) (a b : VkHandle) : Prop :=
  ∃ i j : Nat, i < j ∧ xs[i]? = some a ∧ xs[j]? = some b

/-- The handle-creating stages of main.rs VulkanApp::new, in program
order. -/
inductive StageTag where
  | stInstance
  | stDebug
  | stSurface
  | stDevice
  | stSwapchain
  | stImageViews
deriving DecidableEq

/-- Driver calls that create or destroy a handle. -/
inductive VkEvent where
  | evCreate (h : VkHandle)
  | evDestroy (h : VkHandle)
deriving DecidableEq

def is_destroy_event : VkEvent → Bool
  | VkEvent.evDestroy _ => true
  | VkEvent.evCreate _ => false

/-- The handles each stage of VulkanApp::new creates (n = number of
swap-chain images). -/
def stage_handles (n : Nat) : StageTag → List VkHandle
  | StageTag.stInstance => [VkHandle.instanceH]
  | StageTag.stDebug => [VkHandle.debugMessengerH]
  | StageTag.stSurface => [VkHandle.surfaceH]
  | StageTag.stDevice => [VkHandle.deviceH]
  | StageTag.stSwapchain => [VkHandle.swapchainH]
  | StageTag.stImageViews => (List.range n).map VkHandle.imageViewH

def stage_order : List StageTag :=
  [StageTag.stInstance, StageTag.stDebug, StageTag.stSurface,
   StageTag.stDevice, StageTag.stSwapchain, StageTag.stImageViews]

/-- main.rs VulkanApp::new as an event trace: stages run in order; a
successful stage appends its create calls; the first failing stage makes
new return the error at once (the `?` operator, or a panic for the later
unwrap/expect stages) with no further events, in particular with no
destroy calls.  The only destroy calls in the repository are in impl Drop
for VulkanApp, which runs solely on a fully constructed value. -/
def new_go (ok : StageTag → Bool) (n : Nat) :
    List StageTag → List VkEvent → List VkEvent × Option StageTag
  | [], log => (log, none)
  | s :: rest, log =>
    if ok s then new_go ok n rest (log ++ (stage_handles n s).map VkEvent.evCreate)
    else (log, some s)

/-- Run VulkanApp::new with the given per-stage outcome: the emitted
events, and the failing stage if any. -/
def vulkan_app_new (ok : StageTag → Bool) (n : Nat) :
    List VkEvent × Option StageTag :=
  new_go ok n stage_order []

/-- State of the graphics worker thread of main.rs main (lines 670-718):
whether a VulkanApp has been built (`vulkan_app` is Some), whether the
loop has been exited via break, and counters for how many times
construction was entered and how many times it succeeded. -/
structure WorkerState where
  has_app : Bool
  finished : Bool
  builds : Nat
  successes : Nat
deriving DecidableEq

/-- What one poll of the shared window slot observes: no window yet, or a
window together with the outcome VulkanApp::new would have on this
attempt. -/
inductive PollObs where
  | noWindow
  | window (build_ok : Bool)
deriving DecidableEq

/-- One iteration of the worker loop: with no window it only sends the
RequestWindowHandle event; with a window it breaks if an app already
exists, otherwise it enters VulkanApp::new, which sets `vulkan_app` only
on success (on failure it stays None). -/
def poll_step (s : WorkerState) (obs : PollObs) : WorkerState :=
  if s.finished then s
  else
    match obs with
    | PollObs.noWindow => s
    | PollObs.window ok =>
      if s.has_app then { s with finished := true }
      else
        { s with
          builds := s.builds + 1,
          has_app := ok,
          successes := s.successes + (if ok then 1 else 0) }

def worker_init : WorkerState :=
  { has_app := false, finished := false, builds := 0, successes := 0 }

/-- The worker thread run on a sequence of poll observations. -/
def poll_run (trace : List PollObs) : WorkerState :=
  trace.foldl poll_step worker_init

/-- debug.rs check_validation_layer_support (lines 90-113): iterate the
required layers in order and panic at the first one not found, naming
only that layer.  The panic is modelled as an error carrying the named
layers. -/
def debug_check_validation_layers (required available : List String) :
    Except (List String) Unit :=
  match required.find? (fun r => decide (r ∉ available)) with
  | some r => Except.error [r]
  | none => Except.ok ()

/-- util.rs check_validation_layer_support (lines 53-84): collect every
missing required layer and fail with the whole list. -/
def util_check_validation_layers (required available : List String) :
    Except (List String) Unit :=
  let missing := required.filter (fun r => decide (r ∉ available))
  if missing.isEmpty then Except.ok () else Except.error missing

/-- main.rs VulkanApp::create_instance line 238 calls
debug::check_validation_layer_support with the fixed REQUIRED_LAYERS. -/
def create_instance_layer_check (available : List String) :
    Except (List String) Unit :=
  debug_check_validation_layers REQUIRED_LAYERS available

/-! Helper lemmas about the fold shapes used by the queue-family scans. -/

theorem fqf_split (l : List (Nat × QueueFamily)) (g p : Option Nat) :
    l.foldl
      (fun gp q =>
        (if q.2.graphics && gp.1.isNone then some q.1 else gp.1,
         if q.2.present_support && gp.2.isNone then some q.1 else gp.2))
      (g, p)
    = (l.foldl (fun acc q => if q.2.graphics && acc.isNone then some q.1 else acc) g,
       l.foldl (fun acc q => if q.2.present_support && acc.isNone then some q.1 else acc) p) := by
  induction l generalizing g p with
  | nil => rfl
  | cons x xs ih =>
    simp only [List.foldl_cons]
    exact ih _ _

theorem foldl_first_keep {α β : Type} (pred : α → Bool) (idx : α → β) (l : List α) (x : β) :
    l.foldl (fun acc a => if pred a && acc.isNone then some (idx a) else acc) (some x) =
      some x := by
  induction l with
  | nil => rfl
  | cons a as ih => simpa using ih

theorem foldl_first_none {α β : Type} (pred : α → Bool) (idx : α → β) (l : List α) :
    l.foldl (fun acc a => if pred a && acc.isNone then some (idx a) else acc) none =
      (l.find? pred).map idx := by
  induction l with
  | nil => rfl
  | cons a as ih =>
    cases h : pred a with
    | true =>
      rw [List.find?_cons_of_pos _ h]
      simp only [List.foldl_cons, h, Option.isNone_none, Bool.and_true, if_pos rfl,
        Option.map_some]
      exact foldl_first_keep pred idx as (idx a)
    | false =>
      rw [List.find?_cons_of_neg _ (by simp [h])]
      simpa [h] using ih

theorem foldl_last_some {α β : Type} (pred : α → Bool) (mk : α → β) (l : List α)
    (acc : Option β) (b : β)
    (h : l.foldl (fun acc a => if pred a then some (mk a) else acc) acc = some b) :
    (∃ a ∈ l, pred a = true ∧ mk a = b) ∨ acc = some b := by
  induction l generalizing acc with
  | nil => exact Or.inr h
  | cons x xs ih =>
    simp only [List.foldl_cons] at h
    rcases ih _ h with h1 | h2
    · obtain ⟨a, ha, hp, hm⟩ := h1
      exact Or.inl ⟨a, List.mem_cons_of_mem _ ha, hp, hm⟩
    · by_cases hp : pred x = true
      · rw [if_pos hp] at h2
        exact Or.inl ⟨x, List.mem_cons_self x xs, hp, Option.some.inj h2⟩
      · rw [if_neg hp] at h2
        exact Or.inr h2

theorem foldl_last_isSome {α β : Type} (pred : α → Bool) (mk : α → β) (l : List α) :
    ∀ acc : Option β,
      (l.foldl (fun acc a => if pred a then some (mk a) else acc) acc).isSome = true ↔
        (∃ a ∈ l, pred a = true) ∨ acc.isSome = true := by
  induction l with
  | nil => intro acc; simp
  | cons x xs ih =>
    intro acc
    simp only [List.foldl_cons]
    rw [ih]
    by_cases hp : pred x = true
    · rw [if_pos hp]
      simp only [Option.isSome_some]
      constructor
      · intro _
        exact Or.inl ⟨x, List.mem_cons_self x xs, hp⟩
      · intro _
        exact Or.inr trivial
    · rw [if_neg hp]
      constructor
      · rintro (⟨a, ha, hpa⟩ | h)
        · exact Or.inl ⟨a, List.mem_cons_of_mem _ ha, hpa⟩
        · exact Or.inr h
      · rintro (⟨a, ha, hpa⟩ | h)
        · rcases List.mem_cons.mp ha with rfl | ha2
          · exact absurd hpa hp
          · exact Or.inl ⟨a, ha2, hpa⟩
        · exact Or.inr h

theorem deviceDetailsOfFamilies_eq_indices (name : String) (families : List QueueFamily)
    (d : DeviceDetails) (h : deviceDetailsOfFamilies name families = some d) :
    d.graphics_queue_index = d.present_queue_index ∧
    ∃ q ∈ (families.filter (fun f => decide (0 < f.queue_count))).enum,
      q.1 = d.graphics_queue_index ∧ q.2.graphics = true ∧ q.2.present_support = true := by
  unfold deviceDetailsOfFamilies at h
  have hres := foldl_last_some
      (fun q : Nat × QueueFamily => q.2.graphics && q.2.present_support)
      (fun q : Nat × QueueFamily =>
        { name := name, graphics_queue_index := q.1, present_queue_index := q.1 })
      ((families.filter (fun f => decide (0 < f.queue_count))).enum) none d h
  rcases hres with h1 | h2
  · obtain ⟨q, hq, hpred, hmk⟩ := h1
    obtain ⟨hg, hp⟩ := Bool.and_eq_true_iff.mp hpred
    rw [← hmk]
    exact ⟨rfl, q, hq, rfl, hg, hp⟩
  · exact absurd h2 (by simp)

/-! Claim C1. -/

/-- C1 counterexample: on a device whose first nonzero-capacity family is
graphics-only and whose second is present-only, the per-role scan
(main.rs find_queue_families) finds both indices, 0 and 1; yet the
DeviceDetails-producing filter (util.rs devices_queue_family_support)
records nothing for the device, because no single family supports both
roles.  So a candidate with both indices found is not kept, refuting the
claim's "kept if and only if both indices are found ... may be equal or
different" for the filter that records DeviceDetails. -/
theorem c1_queue_family_filter_cex :
    find_queue_families
        [{ queue_count := 1, graphics := true, present_support := false },
         { queue_count := 1, graphics := false, present_support := true }] =
      (some 0, some 1) ∧
    deviceDetailsOfFamilies "device"
        [{ queue_count := 1, graphics := true, present_support := false },
         { queue_count := 1, graphics := false, present_support := true }] = none := by
  exact ⟨rfl, rfl⟩

/-- C1 (amended): find_queue_families skips zero-capacity families and
returns, independently, the first filtered-enumeration index whose family
is graphics-capable and the first whose family has present support; but
the DeviceDetails-producing filter keeps a candidate exactly when one
single family supports both roles at once, and any DeviceDetails it
records carries that family's index for both roles, so the two recorded
indices are always equal. -/
theorem c1_queue_family_scan_amended :
    ∀ (families : List QueueFamily) (name : String),
      (find_queue_families families).1 =
        (((families.filter (fun f => decide (0 < f.queue_count))).enum.find?
            (fun q => q.2.graphics)).map Prod.fst) ∧
      (find_queue_families families).2 =
        (((families.filter (fun f => decide (0 < f.queue_count))).enum.find?
            (fun q => q.2.present_support)).map Prod.fst) ∧
      (∀ d : DeviceDetails, deviceDetailsOfFamilies name families = some d →
        d.graphics_queue_index = d.present_queue_index ∧
        ∃ q ∈ (families.filter (fun f => decide (0 < f.queue_count))).enum,
          q.1 = d.graphics_queue_index ∧ q.2.graphics = true ∧
            q.2.present_support = true) ∧
      ((deviceDetailsOfFamilies name families).isSome = true ↔
        ∃ q ∈ (families.filter (fun f => decide (0 < f.queue_count))).enum,
          q.2.graphics = true ∧ q.2.present_support = true) := by
  intro families name
  refine ⟨?_, ?_, ?_, ?_⟩
  · unfold find_queue_families
    rw [fqf_split]
    exact foldl_first_none (fun q : Nat × QueueFamily => q.2.graphics)
      (fun q : Nat × QueueFamily => q.1) _
  · unfold find_queue_families
    rw [fqf_split]
    exact foldl_first_none (fun q : Nat × QueueFamily => q.2.present_support)
      (fun q : Nat × QueueFamily => q.1) _
  · intro d hd
    exact deviceDetailsOfFamilies_eq_indices name families d hd
  · unfold deviceDetailsOfFamilies
    have h := foldl_last_isSome
      (fun q : Nat × QueueFamily => q.2.graphics && q.2.present_support)
      (fun q : Nat × QueueFamily =>
        ({ name := name, graphics_queue_index := q.1,
           present_queue_index := q.1 } : DeviceDetails))
      ((families.filter (fun f => decide (0 < f.queue_count))).enum) none
    refine Iff.trans h ?_
    simp [Bool.and_eq_true]

/-- C1 witness: the amended scan facts instantiated on a device with one
family supporting both roles. -/
theorem c1_queue_family_scan_witness :
    (deviceDetailsOfFamilies "gpu"
        [{ queue_count := 1, graphics := true, present_support := true }]).isSome = true := by
  have h := (c1_queue_family_scan_amended
      [{ queue_count := 1, graphics := true, present_support := true }] "gpu").2.2.2
  exact h.mpr ⟨(0, { queue_count := 1, graphics := true, present_support := true }),
    by decide, rfl, rfl⟩

/-! Claim C10. -/

/-- C10: every DeviceDetails produced by the util.rs queue-family filter
has equal graphics and present queue indices; consequently swap-chain
creation for such details always takes the EXCLUSIVE sharing-mode branch
and the CONCURRENT branch is unreachable. -/
theorem c10_device_details_equal_indices_exclusive :
    ∀ (devices : List (String × List QueueFamily)) (d : DeviceDetails),
      d ∈ devices_queue_family_support devices →
      d.graphics_queue_index = d.present_queue_index ∧
      swapchain_sharing_mode d = SharingMode.EXCLUSIVE := by
  intro devices d hd
  obtain ⟨dev, hdev, hsome⟩ := List.mem_filterMap.mp hd
  have heq := (deviceDetailsOfFamilies_eq_indices dev.1 dev.2 d hsome).1
  refine ⟨heq, ?_⟩
  unfold swapchain_sharing_mode
  rw [if_neg (by simp [heq])]

/-- C10 witness: a concrete device whose single queue family supports both
roles yields DeviceDetails with equal indices and EXCLUSIVE sharing. -/
theorem c10_device_details_equal_indices_exclusive_witness :
    swapchain_sharing_mode
        { name := "gpu", graphics_queue_index := 0, present_queue_index := 0 } =
      SharingMode.EXCLUSIVE := by
  have h := c10_device_details_equal_indices_exclusive
      [("gpu", [{ queue_count := 1, graphics := true, present_support := true }])]
      { name := "gpu", graphics_queue_index := 0, present_queue_index := 0 }
      (by decide)
  exact h.2

/-! Claim C2: worker-loop helper lemmas, then the claim theorems. -/

theorem poll_step_inv (s : WorkerState) (obs : PollObs)
    (h1 : s.has_app = true → s.successes = 1)
    (h2 : s.has_app = false → s.successes = 0) :
    ((poll_step s obs).has_app = true → (poll_step s obs).successes = 1) ∧
    ((poll_step s obs).has_app = false → (poll_step s obs).successes = 0) := by
  obtain ⟨app, fin, b, succ⟩ := s
  rcases obs with _ | ok
  all_goals cases fin
  all_goals cases app
  all_goals try cases ok
  all_goals simp [poll_step] at h1 h2 ⊢
  all_goals omega

theorem poll_steps_inv (trace : List PollObs) :
    ∀ s : WorkerState,
      (s.has_app = true → s.successes = 1) →
      (s.has_app = false → s.successes = 0) →
      (((trace.foldl poll_step s).has_app = true →
          (trace.foldl poll_step s).successes = 1) ∧
       ((trace.foldl poll_step s).has_app = false →
          (trace.foldl poll_step s).successes = 0)) := by
  induction trace with
  | nil => intro s h1 h2; exact ⟨h1, h2⟩
  | cons o os ih =>
    intro s h1 h2
    obtain ⟨g1, g2⟩ := poll_step_inv s o h1 h2
    simpa [List.foldl_cons] using ih (poll_step s o) g1 g2

theorem poll_step_keeps_app (s : WorkerState) (obs : PollObs) (h : s.has_app = true) :
    (poll_step s obs).has_app = true ∧ (poll_step s obs).builds = s.builds := by
  obtain ⟨app, fin, b, succ⟩ := s
  rcases obs with _ | ok
  all_goals cases fin
  all_goals simp [poll_step] at h ⊢
  all_goals simp [h]

theorem poll_steps_keep_app (t : List PollObs) :
    ∀ s : WorkerState, s.has_app = true →
      (t.foldl poll_step s).has_app = true ∧ (t.foldl poll_step s).builds = s.builds := by
  induction t with
  | nil => intro s h; exact ⟨h, rfl⟩
  | cons o os ih =>
    intro s h
    obtain ⟨h1, h2⟩ := poll_step_keeps_app s o h
    obtain ⟨h3, h4⟩ := ih (poll_step s o) h1
    constructor
    · simpa [List.foldl_cons] using h3
    · rw [List.foldl_cons, h4, h2]

/-- C2 counterexample: with a window published and VulkanApp::new failing,
two consecutive polls enter construction twice (one poll enters it once),
so after a failed pipeline run the worker does retry construction on the
next poll, refuting "at most once per process run ... does not retry". -/
theorem c2_worker_retries_after_failure_cex :
    (poll_run [PollObs.window false, PollObs.window false]).builds = 2 ∧
    (poll_run [PollObs.window false]).builds = 1 := by decide

/-- C2 (amended): at most one construction attempt ever succeeds in a
worker run; once a VulkanApp exists, subsequent polls never re-enter
construction (the loop breaks); but after a failed attempt the latch is
still unset, so any later poll that observes the window re-enters
construction. -/
theorem c2_single_successful_construction_amended :
    ∀ (t1 t2 : List PollObs),
      (poll_run t1).successes ≤ 1 ∧
      ((poll_run t1).has_app = true →
        (poll_run (t1 ++ t2)).builds = (poll_run t1).builds) ∧
      (∀ (s : WorkerState) (ok : Bool), s.finished = false → s.has_app = false →
        (poll_step s (PollObs.window ok)).builds = s.builds + 1) := by
  intro t1 t2
  refine ⟨?_, ?_, ?_⟩
  · show (t1.foldl poll_step worker_init).successes ≤ 1
    obtain ⟨g1, g2⟩ := poll_steps_inv t1 worker_init (by simp [worker_init])
      (by simp [worker_init])
    cases happ : (t1.foldl poll_step worker_init).has_app
    · have := g2 happ
      omega
    · have := g1 happ
      omega
  · intro h
    rw [poll_run, List.foldl_append]
    exact (poll_steps_keep_app t2 (poll_run t1) h).2
  · intro s ok hf ha
    obtain ⟨app, fin, b, succ⟩ := s
    simp only at hf ha
    subst hf
    subst ha
    simp [poll_step]

/-- C2 witness: after a successful construction, two further polls do not
change the number of construction entries. -/
theorem c2_single_successful_construction_witness :
    (poll_run [PollObs.window true]).successes ≤ 1 ∧
    (poll_run ([PollObs.window true] ++ [PollObs.window true, PollObs.noWindow])).builds =
      (poll_run [PollObs.window true]).builds := by
  have h := c2_single_successful_construction_amended [PollObs.window true]
      [PollObs.window true, PollObs.noWindow]
  exact ⟨h.1, h.2.1 (by decide)⟩

/-! Claim C3. -/

/-- C3 counterexample: with two swap-chain images, Drop destroys the image
views in forward creation order (view 0 before view 1), so the destroy
sequence is not the exact reverse of the create sequence, which ends
..., view 0, view 1. -/
theorem c3_destroy_not_exact_reverse_cex :
    destroySeq 2 ≠ (createSeq 2).reverse := by decide

/-- C3 (amended): teardown is the reverse of creation at stage
granularity: every image-view destroy precedes the swap-chain destroy,
which precedes the device, surface, debug-messenger and instance destroys
in that order, and the destroy sequence is a permutation of the create
sequence (each created handle destroyed exactly once); the exact-reverse
property holds only when there is at most one image view, the image views
themselves being destroyed in forward creation order. -/
theorem c3_teardown_stage_order_amended :
    ∀ n : Nat,
      (∀ k, k < n →
        listBefore (destroySeq n) (VkHandle.imageViewH k) VkHandle.swapchainH) ∧
      listBefore (destroySeq n) VkHandle.swapchainH VkHandle.deviceH ∧
      listBefore (destroySeq n) VkHandle.deviceH VkHandle.surfaceH ∧
      listBefore (destroySeq n) VkHandle.surfaceH VkHandle.debugMessengerH ∧
      listBefore (destroySeq n) VkHandle.debugMessengerH VkHandle.instanceH ∧
      (destroySeq n).Perm (createSeq n) ∧
      (n ≤ 1 → destroySeq n = (createSeq n).reverse) := by
  intro n
  have hlen : ((List.range n).map VkHandle.imageViewH).length = n := by simp
  have hview : ∀ k, k < n →
      (destroySeq n)[k]? = some (VkHandle.imageViewH k) := by
    intro k hk
    unfold destroySeq
    rw [List.getElem?_append_left (by simpa [hlen] using hk)]
    simp [List.getElem?_map, List.getElem?_range, hk]
  have htail : ∀ i : Nat,
      (destroySeq n)[n + i]? =
        [VkHandle.swapchainH, VkHandle.deviceH, VkHandle.surfaceH,
         VkHandle.debugMessengerH, VkHandle.instanceH][i]? := by
    intro i
    unfold destroySeq
    rw [List.getElem?_append_right (by simp [hlen])]
    simp [hlen]
  refine ⟨?_, ?_, ?_, ?_, ?_, ?_, ?_⟩
  · intro k hk
    exact ⟨k, n, hk, hview k hk, by simpa using htail 0⟩
  · exact ⟨n, n + 1, by omega, by simpa using htail 0, by simpa using htail 1⟩
  · exact ⟨n + 1, n + 2, by omega, by simpa using htail 1, by simpa using htail 2⟩
  · exact ⟨n + 2, n + 3, by omega, by simpa using htail 2, by simpa using htail 3⟩
  · exact ⟨n + 3, n + 4, by omega, by simpa using htail 3, by simpa using htail 4⟩
  · unfold destroySeq createSeq
    have h1 : ([VkHandle.swapchainH, VkHandle.deviceH, VkHandle.surfaceH,
        VkHandle.debugMessengerH, VkHandle.instanceH] : List VkHandle) =
        ([VkHandle.instanceH, VkHandle.debugMessengerH, VkHandle.surfaceH,
          VkHandle.deviceH, VkHandle.swapchainH] : List VkHandle).reverse := by rfl
    rw [h1]
    refine List.Perm.trans List.perm_append_comm ?_
    exact List.Perm.append_right _ (List.reverse_perm _)
  · intro hn
    interval_cases n
    · decide
    · decide

/-- C3 witness: the stage-order facts at n = 2 images, and the
exact-reverse special case at n = 1. -/
theorem c3_teardown_stage_order_witness :
    listBefore (destroySeq 2) (VkHandle.imageViewH 0) VkHandle.swapchainH ∧
    destroySeq 1 = (createSeq 1).reverse := by
  have h2 := c3_teardown_stage_order_amended 2
  have h1 := c3_teardown_stage_order_amended 1
  exact ⟨h2.1 0 (by decide), h1.2.2.2.2.2.2 (by decide)⟩

/-! Claim C4. -/

theorem creates_filter_nil (l : List VkHandle) :
    (l.map VkEvent.evCreate).filter is_destroy_event = [] := by
  induction l with
  | nil => rfl
  | cons x xs ih => simp [is_destroy_event, ih]

theorem new_go_no_destroys (ok : StageTag → Bool) (n : Nat) :
    ∀ (stages : List StageTag) (log : List VkEvent),
      log.filter is_destroy_event = [] →
      ((new_go ok n stages log).1).filter is_destroy_event = [] := by
  intro stages
  induction stages with
  | nil => intro log h; exact h
  | cons s rest ih =>
    intro log h
    simp only [new_go]
    by_cases hs : ok s = true
    · rw [if_pos hs]
      apply ih
      rw [List.filter_append, h, creates_filter_nil]
      rfl
    · rw [if_neg hs]
      exact h

/-- C4 counterexample: when surface creation fails after the instance and
debug messenger were created, VulkanApp::new returns the error with the
two earlier creates in its event trace and no destroy call at all, so the
handles created before the failing stage are not released before the
entry point returns. -/
theorem c4_partial_handles_not_released_cex :
    vulkan_app_new
        (fun s => match s with
          | StageTag.stInstance => true
          | StageTag.stDebug => true
          | _ => false) 3 =
      ([VkEvent.evCreate VkHandle.instanceH, VkEvent.evCreate VkHandle.debugMessengerH],
       some StageTag.stSurface) ∧
    (vulkan_app_new
        (fun s => match s with
          | StageTag.stInstance => true
          | StageTag.stDebug => true
          | _ => false) 3).1.filter is_destroy_event = [] := by
  exact ⟨rfl, rfl⟩

/-- C4 (amended): whenever a pipeline stage fails, VulkanApp::new returns
its error without issuing any destroy call: every event it emitted is a
create, so the handles made by earlier stages stay alive (the only
destroys in the repository are in Drop, which runs solely on a fully
constructed VulkanApp). -/
theorem c4_failure_releases_nothing_amended :
    ∀ (ok : StageTag → Bool) (n : Nat) (fs : StageTag),
      (vulkan_app_new ok n).2 = some fs →
      (vulkan_app_new ok n).1.filter is_destroy_event = [] ∧
      ∀ e ∈ (vulkan_app_new ok n).1, ∃ h : VkHandle, e = VkEvent.evCreate h := by
  intro ok n fs _
  have hmain := new_go_no_destroys ok n stage_order [] rfl
  refine ⟨hmain, ?_⟩
  intro e he
  have hnd : ¬ is_destroy_event e = true := by
    intro hd
    exact (List.filter_eq_nil_iff.mp hmain e he) hd
  cases e with
  | evCreate h => exact ⟨h, rfl⟩
  | evDestroy h =>
    exact absurd
      (by simp [is_destroy_event] : is_destroy_event (VkEvent.evDestroy h) = true) hnd

/-- C4 witness: the amended fact on the run that fails at surface
creation. -/
theorem c4_failure_releases_nothing_witness :
    (vulkan_app_new (fun s => match s with
        | StageTag.stInstance => true
        | StageTag.stDebug => true
        | _ => false) 3).1.filter is_destroy_event = [] :=
  (c4_failure_releases_nothing_amended _ 3 StageTag.stSurface (by decide)).1

/-! Claim C5. -/

/-- C5: whenever some required layer is absent from the available-layer
list, the layer check invoked by VulkanApp::create_instance (the debug.rs
one) fails, and the names it reports are exactly the absent required
layers.  The debug.rs loop stops at the first missing layer, but the
program's REQUIRED_LAYERS holds a single name, so the reported list
provably equals the full missing list for every available-layer list. -/
theorem c5_layer_check_reports_all_missing :
    ∀ (available : List String),
      (∃ r ∈ REQUIRED_LAYERS, r ∉ available) →
      create_instance_layer_check available =
        Except.error (REQUIRED_LAYERS.filter (fun r => decide (r ∉ available))) := by
  intro available h
  obtain ⟨r, hr, hna⟩ := h
  have hreq : r = "VK_LAYER_KHRONOS_validation" := by
    simpa [REQUIRED_LAYERS] using hr
  subst hreq
  unfold create_instance_layer_check debug_check_validation_layers REQUIRED_LAYERS
  rw [List.find?_cons_of_pos _ (by simpa using hna)]
  simp [List.filter_cons, hna]

/-- C5 witness: with no layers available, the check reports the one (and
only) required layer, which is the whole missing set. -/
theorem c5_layer_check_reports_all_missing_witness :
    create_instance_layer_check [] = Except.error ["VK_LAYER_KHRONOS_validation"] := by
  have h := c5_layer_check_reports_all_missing [] (by decide)
  simpa [REQUIRED_LAYERS] using h

/-! Claim C6. -/

theorem find?_first_iff {α : Type} (p : α → Bool) (l : List α) (a : α) :
    l.find? p = some a ↔
      ∃ i : Nat, l[i]? = some a ∧ p a = true ∧
        ∀ j : Nat, j < i → ∀ e, l[j]? = some e → p e = false := by
  induction l with
  | nil => simp
  | cons x xs ih =>
    by_cases hp : p x = true
    · rw [List.find?_cons_of_pos _ hp]
      constructor
      · intro h
        have hax : x = a := Option.some.inj h
        subst hax
        refine ⟨0, by simp, hp, ?_⟩
        intro j hj e he
        omega
      · rintro ⟨i, hget, hpa, hmin⟩
        cases i with
        | zero =>
          have : x = a := by simpa using hget
          rw [this]
        | succ m =>
          have h0 := hmin 0 (Nat.succ_pos m) x (by simp)
          exact absurd hp (by simp [h0])
    · have hp' : p x = false := by simpa using hp
      rw [List.find?_cons_of_neg _ (by simp [hp'])]
      rw [ih]
      constructor
      · rintro ⟨i, hget, hpa, hmin⟩
        refine ⟨i + 1, by simpa using hget, hpa, ?_⟩
        intro j hj e he
        cases j with
        | zero =>
          have hex : x = e := by simpa using he
          rw [← hex]
          exact hp'
        | succ m =>
          exact hmin m (by omega) e (by simpa using he)
      · rintro ⟨i, hget, hpa, hmin⟩
        cases i with
        | zero =>
          have hax : x = a := by simpa using hget
          rw [← hax] at hpa
          exact absurd hpa (by simp [hp'])
        | succ m =>
          refine ⟨m, by simpa using hget, hpa, ?_⟩
          intro j hj e he
          exact hmin (j + 1) (by omega) e (by simpa using he)

/-- C6: main.rs pick_physical_device returns some d exactly when d is the
first device in enumeration order that passes is_device_suitable (every
earlier device fails the filter); being a pure function of the
enumeration, the selection is deterministic for a fixed enumeration
result and filter outcome. -/
theorem c6_pick_first_suitable :
    ∀ (devices : List CandidateDevice) (d : CandidateDevice),
      pick_physical_device devices = some d ↔
        ∃ i : Nat, devices[i]? = some d ∧ is_device_suitable d = true ∧
          ∀ j : Nat, j < i → ∀ e, devices[j]? = some e → is_device_suitable e = false := by
  intro devices d
  exact find?_first_iff is_device_suitable devices d

/-- C6 witness: with an unsuitable device enumerated first and a suitable
one second, selection picks the second. -/
theorem c6_pick_first_suitable_witness :
    pick_physical_device
        [{ queue_families := [], extensions := [], formats := [], present_modes := [] },
         { queue_families := [{ queue_count := 1, graphics := true, present_support := true }],
           extensions := ["VK_KHR_swapchain"],
           formats := [{ format := 44, color_space := 0 }],
           present_modes := [2] }] =
      some { queue_families := [{ queue_count := 1, graphics := true, present_support := true }],
             extensions := ["VK_KHR_swapchain"],
             formats := [{ format := 44, color_space := 0 }],
             present_modes := [2] } := by
  apply (c6_pick_first_suitable _ _).mpr
  refine ⟨1, by rfl, by decide, ?_⟩
  intro j hj e he
  interval_cases j
  simp only [List.getElem?_cons_zero, Option.some.injEq] at he
  rw [← he]
  decide

/-! Claim C7. -/

/-- C7: surface-format negotiation returns the fixed preferred pair when
the advertised list is the single sentinel UNDEFINED entry; otherwise it
returns the preferred pair when advertised; otherwise the first
advertised pair. -/
theorem c7_surface_format_negotiation :
    ∀ (formats : List SurfaceFormatKHR) (f0 : SurfaceFormatKHR),
      formats.head? = some f0 →
      ((formats.length = 1 ∧ f0.format = FORMAT_UNDEFINED) →
        choose_swapchain_surface_format formats = some preferred_surface_format) ∧
      (¬(formats.length = 1 ∧ f0.format = FORMAT_UNDEFINED) →
        preferred_surface_format ∈ formats →
        choose_swapchain_surface_format formats = some preferred_surface_format) ∧
      (¬(formats.length = 1 ∧ f0.format = FORMAT_UNDEFINED) →
        preferred_surface_format ∉ formats →
        choose_swapchain_surface_format formats = some f0) := by
  intro formats f0 hh
  have hpred : ∀ f : SurfaceFormatKHR,
      (decide (f.format = FORMAT_B8G8R8A8_UNORM ∧
        f.color_space = COLOR_SPACE_SRGB_NONLINEAR) = true) ↔
      f = preferred_surface_format := by
    intro f
    constructor
    · intro h
      obtain ⟨h1, h2⟩ := of_decide_eq_true h
      cases f
      simp_all [preferred_surface_format]
    · intro h
      subst h
      decide
  simp only [choose_swapchain_surface_format]
  rw [hh]
  dsimp only
  refine ⟨?_, ?_, ?_⟩
  · intro hc
    rw [if_pos hc]
  · intro hc hmem
    rw [if_neg hc]
    have hs : (formats.find? (fun f =>
        decide (f.format = FORMAT_B8G8R8A8_UNORM ∧
          f.color_space = COLOR_SPACE_SRGB_NONLINEAR))).isSome := by
      exact List.find?_isSome.mpr ⟨preferred_surface_format, hmem, by decide⟩
    obtain ⟨v, hv⟩ := Option.isSome_iff_exists.mp hs
    have hpv := List.find?_some hv
    have hvp : v = preferred_surface_format := (hpred v).mp hpv
    rw [hv, hvp]
    rfl
  · intro hc hnmem
    rw [if_neg hc]
    cases hfind : formats.find? (fun f =>
        decide (f.format = FORMAT_B8G8R8A8_UNORM ∧
          f.color_space = COLOR_SPACE_SRGB_NONLINEAR)) with
    | none => rfl
    | some v =>
      have hps := List.find?_some hfind
      have hvp : v = preferred_surface_format := (hpred v).mp hps
      have hmem2 := List.mem_of_find?_eq_some hfind
      rw [hvp] at hmem2
      exact absurd hmem2 hnmem

/-- C7 witness: the sentinel case (single UNDEFINED-format entry, with an
arbitrary color space) yields the preferred pair, and a list containing
only R8G8B8A8_UNORM yields that sole advertised pair. -/
theorem c7_surface_format_negotiation_witness :
    choose_swapchain_surface_format [{ format := 0, color_space := 7 }] =
      some preferred_surface_format ∧
    choose_swapchain_surface_format [{ format := 37, color_space := 0 }] =
      some { format := 37, color_space := 0 } := by
  constructor
  · exact (c7_surface_format_negotiation [{ format := 0, color_space := 7 }]
      { format := 0, color_space := 7 } rfl).1 (by constructor <;> rfl)
  · exact (c7_surface_format_negotiation [{ format := 37, color_space := 0 }]
      { format := 37, color_space := 0 } rfl).2.2
      (by intro hc; exact absurd hc.2 (by decide)) (by decide)

/-! Claim C8. -/

/-- C8: present-mode negotiation returns MAILBOX when advertised, else
FIFO when advertised, else IMMEDIATE, in this exact priority order. -/
theorem c8_present_mode_priority :
    ∀ modes : List Nat,
      (PRESENT_MODE_MAILBOX ∈ modes →
        choose_swapchain_surface_present_mode modes = PRESENT_MODE_MAILBOX) ∧
      (PRESENT_MODE_MAILBOX ∉ modes → PRESENT_MODE_FIFO ∈ modes →
        choose_swapchain_surface_present_mode modes = PRESENT_MODE_FIFO) ∧
      (PRESENT_MODE_MAILBOX ∉ modes → PRESENT_MODE_FIFO ∉ modes →
        choose_swapchain_surface_present_mode modes = PRESENT_MODE_IMMEDIATE) := by
  intro modes
  unfold choose_swapchain_surface_present_mode
  refine ⟨?_, ?_, ?_⟩
  · intro h
    rw [if_pos h]
  · intro h1 h2
    rw [if_neg h1, if_pos h2]
  · intro h1 h2
    rw [if_neg h1, if_neg h2]

/-- C8 witness: the spec's two examples, FIFO with IMMEDIATE and
IMMEDIATE alone. -/
theorem c8_present_mode_priority_witness :
    choose_swapchain_surface_present_mode [PRESENT_MODE_FIFO, PRESENT_MODE_IMMEDIATE] =
      PRESENT_MODE_FIFO ∧
    choose_swapchain_surface_present_mode [PRESENT_MODE_IMMEDIATE] =
      PRESENT_MODE_IMMEDIATE := by
  exact ⟨(c8_present_mode_priority _).2.1 (by decide) (by decide),
    (c8_present_mode_priority _).2.2 (by decide) (by decide)⟩

/-! Claim C9. -/

/-- C9: logical-device creation builds exactly one queue-creation request
(for the shared family) when the graphics and present indices coincide,
and exactly two (one per family) when they differ; every request carries
the single priority 1.0, so it requests exactly one queue. -/
theorem c9_queue_request_dedup :
    ∀ d : DeviceDetails,
      (d.graphics_queue_index = d.present_queue_index →
        logical_device_queue_create_infos d =
          [{ queue_family_index := d.graphics_queue_index, queue_priorities := [1] }]) ∧
      (d.graphics_queue_index ≠ d.present_queue_index →
        logical_device_queue_create_infos d =
          [{ queue_family_index := d.graphics_queue_index, queue_priorities := [1] },
           { queue_family_index := d.present_queue_index, queue_priorities := [1] }]) ∧
      (∀ info ∈ logical_device_queue_create_infos d,
        info.queue_priorities = [(1 : ℚ)]) := by
  intro d
  refine ⟨?_, ?_, ?_⟩
  · intro h
    simp [logical_device_queue_create_infos, vecDedup, h]
  · intro h
    simp [logical_device_queue_create_infos, vecDedup, h]
  · intro info hinfo
    unfold logical_device_queue_create_infos at hinfo
    obtain ⟨i, _, hi⟩ := List.mem_map.mp hinfo
    rw [← hi]

/-- C9 witness: equal indices give one request, distinct indices give
two. -/
theorem c9_queue_request_dedup_witness :
    logical_device_queue_create_infos
        { name := "gpu", graphics_queue_index := 3, present_queue_index := 3 } =
      [{ queue_family_index := 3, queue_priorities := [1] }] ∧
    logical_device_queue_create_infos
        { name := "gpu", graphics_queue_index := 3, present_queue_index := 4 } =
      [{ queue_family_index := 3, queue_priorities := [1] },
       { queue_family_index := 4, queue_priorities := [1] }] := by
  exact ⟨(c9_queue_request_dedup _).1 rfl, (c9_queue_request_dedup _).2.1 (by decide)⟩
